import Mathlib

/-
Shallow embedding of `src/streamflow_forecast.py`.

Conventions of the embedding:
* Python `datetime.date` values are modelled by `Date` (year as an integer,
  month and day as naturals) together with the validity predicate
  `Date.isValid`; `date.replace(...)` raising `ValueError` on an invalid
  date is modelled by testing `Date.isValid` on the candidate result.
* Python floats are modelled exactly by the rationals `ℚ`; the numeric
  claims under study are about the algebraic structure of the computations,
  not about rounding.
* A row of a pandas dataframe is a `TimePoint`: `t` is the (year-stripped)
  index position of the row, measured in seconds, and `v` is the value of
  the `streamflow` column.  A dataframe is a `List TimePoint` in
  chronological order; a dataframe together with its `year` column is a
  `YearSeries`.
* Functions that can raise in Python (unpacking too few values,
  division by zero, popping from an empty list) return `Option`, with
  `none` as the failure branch.
* The in-place mutation performed by `get_streamflow_average`
  (`df_list.pop(0)`) is modelled by state passing: the function returns
  the caller's list as it stands after the call, together with the
  computed average frame.
-/

namespace Streamflow

/-! ## Date model and `sub_year` -/

/-- Gregorian leap-year test, as Python's `calendar`/`datetime` define it.
`Int.emod` agrees with Python's `%` on negative numbers. -/
def isLeapYear (y : Int) : Bool :=
  (y % 4 == 0 && y % 100 != 0) || y % 400 == 0

/-- Number of days of month `m` in year `y` (months are 1-based). -/
def daysInMonth (y : Int) (m : Nat) : Nat :=
  if m = 2 then (if isLeapYear y then 29 else 28)
  else if m = 4 ∨ m = 6 ∨ m = 9 ∨ m = 11 then 30
  else 31

/-- A calendar date: the fields of a Python `datetime.date`. -/
structure Date where
  year : Int
  month : Nat
  day : Nat
deriving DecidableEq, Repr

/-- The dates `datetime.date` accepts (ignoring Python's year-range limits,
which play no role here). -/
def Date.isValid (d : Date) : Bool :=
  decide (1 ≤ d.month ∧ d.month ≤ 12 ∧ 1 ≤ d.day ∧ d.day ≤ daysInMonth d.year d.month)

/-- `sub_year` from `streamflow_forecast.py`: try
`date.replace(year=date.year-1)`; if that date is invalid (Feb 29 landing in
a non-leap year) fall back to `date.replace(year=date.year-1, day=28)`. -/
def sub_year (d : Date) : Date :=
  let cand : Date := ⟨d.year - 1, d.month, d.day⟩
  if cand.isValid then cand else ⟨d.year - 1, d.month, 28⟩

/-- Decrementing by `k` years as the fetch loop of `get_streamflow_data`
performs it: `k` successive applications of `sub_year`. -/
def subYears : Nat → Date → Date
  | 0, d => d
  | k + 1, d => subYears k (sub_year d)

/-- The calendar day after `d` (for valid `d`): one step of `timedelta(days=1)`. -/
def nextDay (d : Date) : Date :=
  if d.day < daysInMonth d.year d.month then ⟨d.year, d.month, d.day + 1⟩
  else if d.month < 12 then ⟨d.year, d.month + 1, 1⟩
  else ⟨d.year + 1, 1, 1⟩

/-- The calendar day before `d` (for valid `d`). -/
def prevDay (d : Date) : Date :=
  if 1 < d.day then ⟨d.year, d.month, d.day - 1⟩
  else if 1 < d.month then ⟨d.year, d.month - 1, daysInMonth d.year (d.month - 1)⟩
  else ⟨d.year - 1, 12, 31⟩

/-- `d + timedelta(days=n)`. -/
def addDays (d : Date) (n : Nat) : Date := nextDay^[n] d

/-- `d - timedelta(days=n)`. -/
def subDays (d : Date) (n : Nat) : Date := prevDay^[n] d

/-- The historical-year loop of `get_streamflow_data`: starting from the
current `sd`/`ed` pair, each iteration replaces both by their `sub_year`
image and fetches with the new pair. -/
def windowsLoop : Nat → Date → Date → List (Date × Date)
  | 0, _, _ => []
  | n + 1, sd, ed =>
      let sd' := sub_year sd
      let ed' := sub_year ed
      (sd', ed') :: windowsLoop n sd' ed'

/-- The sequence of `(start_date, end_date)` pairs passed to `hf.NWIS` by
`get_streamflow_data`: the anchor fetch uses `(anchor - 14 days, anchor)`,
then nine historical fetches use the year-decremented images of
`(anchor - 14 days, anchor + 6 days)`. -/
def streamflowWindows (anchor : Date) : List (Date × Date) :=
  let sd := subDays anchor 14
  let ed := addDays anchor 6
  (sd, anchor) :: windowsLoop 9 sd ed

/-! ## Series model -/

/-- One sample: `t` is the year-stripped index position in seconds,
`v` the flow value (CFS). -/
structure TimePoint where
  t : ℚ
  v : ℚ
deriving DecidableEq, Repr

/-- One year's dataframe: the `year` column (`label`) plus its rows. -/
structure YearSeries where
  label : Int
  points : List TimePoint
deriving DecidableEq, Repr

/-! ## Volume -/

/-- The accumulation loop of `get_streamflow_volume` over the `streamflow`
column: each adjacent pair contributes `width * (height + difference)` with
the hard-coded `width = 15 * 60 = 900` seconds. -/
def volumeSum : List ℚ → ℚ
  | h₁ :: h₂ :: rest => 900 * (h₁ + (h₂ - h₁) / 2) + volumeSum (h₂ :: rest)
  | _ => 0

/-- `get_streamflow_volume`: the Riemann sum over the values, converted from
cubic feet to acre-feet by `2.29568e-5`.  Only the value column is read;
the timestamps are never consulted. -/
def get_streamflow_volume (pts : List TimePoint) : ℚ :=
  volumeSum (pts.map TimePoint.v) * (229568 / 10 ^ 10)

/-- Modelled from the spec, for comparison with the code: the trapezoid sum
whose width for each adjacent pair is the actual elapsed seconds between the
two points' timestamps. -/
def specTimedVolumeSum : List TimePoint → ℚ
  | p :: q :: rest => (q.t - p.t) * (p.v + (q.v - p.v) / 2) + specTimedVolumeSum (q :: rest)
  | _ => 0

/-- Modelled from the spec: `volumeOf` with true inter-sample widths, in
acre-feet. -/
def specVolumeOf (pts : List TimePoint) : ℚ :=
  specTimedVolumeSum pts * (229568 / 10 ^ 10)

/-! ## Rate of change -/

/-- `get_streamflow_change`: take the last two values `water0, water1` (in
chronological order), set `deltaY = water0 - water1`, `deltaX = 15`, and
return `deltaY / deltaX * 60`.  Unpacking fewer than two values raises in
Python; that is the `none` branch. -/
def get_streamflow_change (pts : List TimePoint) : Option ℚ :=
  match (pts.map TimePoint.v).reverse with
  | water1 :: water0 :: _ => some ((water0 - water1) / 15 * 60)
  | _ => none

/-! ## Outlier selection -/

/-- Python's `max` over a nonempty list (`[]` is mapped to `0`; Python would
raise, and every use below is on a nonempty list). -/
def listMax : List ℚ → ℚ
  | [] => 0
  | h :: rest => rest.foldl max h

/-- Python's `min` over a nonempty list (same convention as `listMax`). -/
def listMin : List ℚ → ℚ
  | [] => 0
  | h :: rest => rest.foldl min h

/-- Python's `list.index(v)`: the first position holding `v`. -/
def firstIdxOf (l : List ℚ) (v : ℚ) : Nat :=
  l.findIdx (fun x => decide (x = v))

/-- `get_streamflow_outliers`: compute every member's volume, then return
`(df_list[volume_list.index(max(volume_list))],
  df_list[volume_list.index(min(volume_list))])`.
On an empty list Python's `max` raises; that is the `none` branch. -/
def get_streamflow_outliers (df_list : List YearSeries) : Option (YearSeries × YearSeries) :=
  match df_list with
  | [] => none
  | s :: rest =>
      let l := s :: rest
      let volume_list := l.map (fun ys => get_streamflow_volume ys.points)
      let maxIdx := firstIdxOf volume_list (listMax volume_list)
      let minIdx := firstIdxOf volume_list (listMin volume_list)
      some (l.getD maxIdx s, l.getD minIdx s)

/-! ## Historical average -/

/-- Row lookup in one year's dataframe by year-stripped index key, as the
outer join of `pd.concat(axis='columns')` aligns rows: the value at key `k`,
or `none` when that year has no row there (a NaN cell). -/
def dfLookup (ys : YearSeries) (k : ℚ) : Option ℚ :=
  (ys.points.find? (fun p => decide (p.t = k))).map TimePoint.v

/-- The union of row keys of the merged frame, in order of appearance. -/
def mergedKeys (hist : List YearSeries) : List ℚ :=
  (hist.flatMap (fun ys => ys.points.map TimePoint.t)).dedup

/-- `get_streamflow_average`, in state-passing form.  The Python function
first executes `df_list.pop(0)` — mutating the caller's list — then outer-joins
the remaining frames column-wise and sets
`avg = row-sum / df_merged.shape[1]`: the row sum skips NaN cells (missing
keys count as 0) but the divisor is the total number of historical columns.
The first component of the result is the caller's list after the call;
`pop` on an empty list raises, the `none` branch. -/
def get_streamflow_average :
    List YearSeries → Option (List YearSeries × List (ℚ × ℚ))
  | [] => none
  | _ :: hist =>
      some (hist, (mergedKeys hist).map (fun k =>
        (k, (hist.map (fun ys => (dfLookup ys k).getD 0)).sum / (hist.length : ℚ))))

/-- Modelled from the spec, for comparison with the code: the pointwise-
intersection mean at key `k` — the mean over exactly the historical years
that have a value at `k`, undefined when none has. -/
def specPointwiseMean (hist : List YearSeries) (k : ℚ) : Option ℚ :=
  let present := hist.filterMap (fun ys => dfLookup ys k)
  if present.isEmpty then none else some (present.sum / (present.length : ℚ))

/-! ## Linear regression -/

/-- `calculate_linear_regression`: `xs` is the `streamflow` column, `ys` the
positional index `0, 1, …` after `reset_index`.  The closed-form sums are
accumulated over `zip(xs, ys)`; the returned pair is
`(y_int + slope * min(xs), y_int + slope * max(ys))` — note `max` is taken
over `ys`.  A zero denominator raises `ZeroDivisionError` in Python: the
`none` branch. -/
def calculate_linear_regression (pts : List TimePoint) : Option (ℚ × ℚ) :=
  let xs := pts.map TimePoint.v
  let ys := (List.range pts.length).map (fun i : Nat => (i : ℚ))
  let pairs := xs.zip ys
  let n : ℚ := xs.length
  let sum_x := (pairs.map (fun p => p.1)).sum
  let sum_y := (pairs.map (fun p => p.2)).sum
  let sum_xy := (pairs.map (fun p => p.1 * p.2)).sum
  let sum_x_sq := (pairs.map (fun p => p.1 ^ 2)).sum
  if n * sum_x_sq - sum_x ^ 2 = 0 then none
  else
    let slope := (n * sum_xy - sum_x * sum_y) / (n * sum_x_sq - sum_x ^ 2)
    let y_int := (sum_y - slope * sum_x) / n
    some (y_int + slope * listMin xs, y_int + slope * listMax ys)

/-- Modelled from the spec, for comparison with the code: the regression
line's two projection endpoints both evaluated on the independent variable
`xs` — the first at `min(xs)`, the second at `max(xs)`. -/
def specRegressionEndpoints (pts : List TimePoint) : Option (ℚ × ℚ) :=
  let xs := pts.map TimePoint.v
  let ys := (List.range pts.length).map (fun i : Nat => (i : ℚ))
  let pairs := xs.zip ys
  let n : ℚ := xs.length
  let sum_x := (pairs.map (fun p => p.1)).sum
  let sum_y := (pairs.map (fun p => p.2)).sum
  let sum_xy := (pairs.map (fun p => p.1 * p.2)).sum
  let sum_x_sq := (pairs.map (fun p => p.1 ^ 2)).sum
  if n * sum_x_sq - sum_x ^ 2 = 0 then none
  else
    let slope := (n * sum_xy - sum_x * sum_y) / (n * sum_x_sq - sum_x ^ 2)
    let y_int := (sum_y - slope * sum_x) / n
    some (y_int + slope * listMin xs, y_int + slope * listMax xs)

/-! ## Helper lemmas -/

theorem map_fst_fn_zip (f : ℚ → ℚ) : ∀ (xs ys : List ℚ), xs.length ≤ ys.length →
    ((xs.zip ys).map (fun p => f p.1)) = xs.map f := by
  intro xs
  induction xs with
  | nil => intro ys _; rfl
  | cons a t ih =>
      intro ys h
      cases ys with
      | nil => simp at h
      | cons b u =>
          simp only [List.zip_cons_cons, List.map_cons]
          rw [ih u (by simpa using h)]

theorem volumeSum_eq_timed : ∀ pts : List TimePoint,
    List.Chain' (fun p q => q.t - p.t = 900) pts →
    volumeSum (pts.map TimePoint.v) = specTimedVolumeSum pts := by
  intro pts
  induction pts with
  | nil => intro _; rfl
  | cons p rest ih =>
      intro h
      cases rest with
      | nil => rfl
      | cons q t =>
          rw [List.chain'_cons] at h
          obtain ⟨hpq, hrest⟩ := h
          have ih' := ih hrest
          simp only [List.map_cons] at ih'
          simp only [List.map_cons, volumeSum, specTimedVolumeSum]
          rw [hpq, ih']

theorem subYears_eq_iterate (k : Nat) (d : Date) : subYears k d = sub_year^[k] d := by
  induction k generalizing d with
  | zero => rfl
  | succ k ih =>
      rw [subYears, ih, Function.iterate_succ_apply]

theorem sub_year_step (d : Date) (h : d.isValid = true) :
    sub_year d = ⟨d.year - 1, d.month,
      if d.month = 2 ∧ d.day = 29 ∧ isLeapYear (d.year - 1) = false then 28 else d.day⟩ ∧
    (sub_year d).isValid = true := by
  obtain ⟨y, m, dy⟩ := d
  simp only [Date.isValid, decide_eq_true_eq] at h
  obtain ⟨hm1, hm2, hd1, hd4⟩ := h
  by_cases hcond : m = 2 ∧ dy = 29 ∧ isLeapYear (y - 1) = false
  · obtain ⟨hm, hdy, hl⟩ := hcond
    subst hm; subst hdy
    have hinvalid : (⟨y - 1, 2, 29⟩ : Date).isValid = false := by
      simp [Date.isValid, daysInMonth, hl]
    have hvalid28 : (⟨y - 1, 2, 28⟩ : Date).isValid = true := by
      simp [Date.isValid, daysInMonth, hl]
    have hsub : sub_year ⟨y, 2, 29⟩ = ⟨y - 1, 2, 28⟩ := by
      rw [sub_year]; simp [hinvalid]
    refine ⟨?_, ?_⟩
    · rw [hsub]; simp [hl]
    · rw [hsub]; exact hvalid28
  · have hvalid : (⟨y - 1, m, dy⟩ : Date).isValid = true := by
      simp only [Date.isValid, decide_eq_true_eq]
      refine ⟨hm1, hm2, hd1, ?_⟩
      by_cases hy2 : m = 2
      · subst hy2
        have h29 : daysInMonth y 2 ≤ 29 := by
          by_cases hly : isLeapYear y = true <;> simp [daysInMonth, hly]
        cases hl : isLeapYear (y - 1) with
        | false =>
            have hne : dy ≠ 29 := fun hdy => hcond ⟨rfl, hdy, hl⟩
            simp [daysInMonth, hl]
            omega
        | true => simp [daysInMonth, hl]; omega
      · simpa [daysInMonth, hy2] using hd4
    have hsub : sub_year ⟨y, m, dy⟩ = ⟨y - 1, m, dy⟩ := by
      rw [sub_year]; simp [hvalid]
    refine ⟨?_, ?_⟩
    · rw [hsub, if_neg hcond]
    · rw [hsub]; exact hvalid

theorem subYears_props (k : Nat) : ∀ d : Date, d.isValid = true →
    (subYears k d).year = d.year - k ∧
    (subYears k d).month = d.month ∧
    ((subYears k d).day = d.day ∨
      (d.month = 2 ∧ d.day = 29 ∧ (subYears k d).day = 28)) ∧
    (subYears k d).isValid = true := by
  induction k with
  | zero =>
      intro d h
      simpa [subYears] using h
  | succ k ih =>
      intro d h
      obtain ⟨hstep, hvalid⟩ := sub_year_step d h
      have hyear : (sub_year d).year = d.year - 1 := by rw [hstep]
      have hmonth : (sub_year d).month = d.month := by rw [hstep]
      have hday : (sub_year d).day = d.day ∨
          (d.month = 2 ∧ d.day = 29 ∧ (sub_year d).day = 28) := by
        by_cases hcond : d.month = 2 ∧ d.day = 29 ∧ isLeapYear (d.year - 1) = false
        · exact Or.inr ⟨hcond.1, hcond.2.1, by rw [hstep]; simp [if_pos hcond]⟩
        · exact Or.inl (by rw [hstep]; simp [if_neg hcond])
      obtain ⟨iy, im, iday, ival⟩ := ih (sub_year d) hvalid
      have hrw : subYears (k + 1) d = subYears k (sub_year d) := rfl
      refine ⟨?_, ?_, ?_, ?_⟩
      · rw [hrw, iy, hyear]; push_cast; ring
      · rw [hrw, im, hmonth]
      · rw [hrw]
        rcases iday with h1 | ⟨h2m, h2d, h2⟩
        · rw [h1]
          rcases hday with g1 | ⟨g2m, g2d, g2⟩
          · exact Or.inl g1
          · exact Or.inr ⟨g2m, g2d, g2⟩
        · rw [hmonth] at h2m
          rcases hday with g1 | ⟨g2m, g2d, g2⟩
          · rw [g1] at h2d
            exact Or.inr ⟨h2m, h2d, h2⟩
          · rw [g2] at h2d
            exact absurd h2d (by omega)
      · rw [hrw]; exact ival

/-! ## Claim theorems -/

/-- C1: for every valid date, `sub_year` decrements the year field and
preserves month and day except that February 29 landing in a non-leap year is
clamped to day 28; decrementing by `k` years is the `k`-fold application of
this single-year step (as the fetch loop performs it), so the month is
preserved and the day is preserved up to the Feb-29 clamp across any number
of leap-year boundaries, and the result is always a valid date. -/
theorem sub_year_calendar (d : Date) (k : Nat) (h : d.isValid = true) :
    subYears k d = sub_year^[k] d ∧
    sub_year d = ⟨d.year - 1, d.month,
      if d.month = 2 ∧ d.day = 29 ∧ isLeapYear (d.year - 1) = false then 28 else d.day⟩ ∧
    (subYears k d).year = d.year - k ∧
    (subYears k d).month = d.month ∧
    ((subYears k d).day = d.day ∨
      (d.month = 2 ∧ d.day = 29 ∧ (subYears k d).day = 28)) ∧
    (subYears k d).isValid = true := by
  obtain ⟨hy, hm, hd, hv⟩ := subYears_props k d h
  exact ⟨subYears_eq_iterate k d, (sub_year_step d h).1, hy, hm, hd, hv⟩

/-- Witness for C1 at the date 2024-02-29 with `k = 5`. -/
theorem sub_year_calendar_witness :
    subYears 5 ⟨2024, 2, 29⟩ = sub_year^[5] ⟨2024, 2, 29⟩ ∧
    sub_year ⟨2024, 2, 29⟩ = ⟨(⟨2024, 2, 29⟩ : Date).year - 1, (⟨2024, 2, 29⟩ : Date).month,
      if (⟨2024, 2, 29⟩ : Date).month = 2 ∧ (⟨2024, 2, 29⟩ : Date).day = 29 ∧
          isLeapYear ((⟨2024, 2, 29⟩ : Date).year - 1) = false then 28
        else (⟨2024, 2, 29⟩ : Date).day⟩ ∧
    (subYears 5 ⟨2024, 2, 29⟩).year = (⟨2024, 2, 29⟩ : Date).year - (5 : Nat) ∧
    (subYears 5 ⟨2024, 2, 29⟩).month = (⟨2024, 2, 29⟩ : Date).month ∧
    ((subYears 5 ⟨2024, 2, 29⟩).day = (⟨2024, 2, 29⟩ : Date).day ∨
      ((⟨2024, 2, 29⟩ : Date).month = 2 ∧ (⟨2024, 2, 29⟩ : Date).day = 29 ∧
        (subYears 5 ⟨2024, 2, 29⟩).day = 28)) ∧
    (subYears 5 ⟨2024, 2, 29⟩).isValid = true :=
  sub_year_calendar ⟨2024, 2, 29⟩ 5 (by decide)

/-- C9: on a series with fewer than 2 points, `get_streamflow_change` fails
(unpacking `tail(2)` raises in Python; the error branch of the embedding). -/
theorem rate_insufficient_data (pts : List TimePoint) (h : pts.length < 2) :
    get_streamflow_change pts = none := by
  cases pts with
  | nil => rfl
  | cons p rest =>
      cases rest with
      | nil => rfl
      | cons q t => exact absurd h (by simp [List.length_cons])

/-- Witness for C9 on the one-point series. -/
theorem rate_insufficient_data_witness :
    ([(⟨0, 7⟩ : TimePoint)].length < 2) ∧
    get_streamflow_change [(⟨0, 7⟩ : TimePoint)] = none :=
  ⟨by decide, rate_insufficient_data [⟨0, 7⟩] (by decide)⟩

/-- C5 (code bug): on the rising two-point series with values 10 then 20, the
code computes `deltaY = water0 - water1` (older minus newer) and returns
`-40`, a negative rate for a rising flow — contradicting the positive-equals-
rising convention that `plot_streamflow`'s own title logic
(`instant_rate > 0` labelled "rising") relies on. -/
theorem rate_sign_flipped_eval :
    get_streamflow_change [⟨0, 10⟩, ⟨900, 20⟩] = some (-40) ∧
    (10 : ℚ) < 20 ∧ (-40 : ℚ) < 0 := by
  refine ⟨by norm_num [get_streamflow_change], by norm_num, by norm_num⟩

/-- C8: on a series whose flow values are all identical, the denominator
`n·Σx² − (Σx)²` vanishes and the regression fails (Python raises
`ZeroDivisionError`; the error branch of the embedding). -/
theorem regression_degenerate_on_constant (pts : List TimePoint) (c : ℚ)
    (h : ∀ p ∈ pts, p.v = c) :
    calculate_linear_regression pts = none := by
  have hx : ∀ x ∈ pts.map TimePoint.v, x = c := by
    intro x hmem
    obtain ⟨p, hp, rfl⟩ := List.mem_map.1 hmem
    exact h p hp
  have hxsq : ∀ x ∈ (pts.map TimePoint.v).map (fun x => x ^ 2), x = c ^ 2 := by
    intro x hmem
    obtain ⟨p, hp, rfl⟩ := List.mem_map.1 hmem
    rw [hx p hp]
  have hlen : (pts.map TimePoint.v).length ≤
      ((List.range pts.length).map (fun i : Nat => (i : ℚ))).length := by
    rw [List.length_map, List.length_map, List.length_range]
  have h1 : (((pts.map TimePoint.v).zip
        ((List.range pts.length).map (fun i : Nat => (i : ℚ)))).map (fun p => p.1))
      = pts.map TimePoint.v := by
    simpa using map_fst_fn_zip (fun x => x) _ _ hlen
  have h2 : (((pts.map TimePoint.v).zip
        ((List.range pts.length).map (fun i : Nat => (i : ℚ)))).map (fun p => p.1 ^ 2))
      = (pts.map TimePoint.v).map (fun x => x ^ 2) :=
    map_fst_fn_zip (fun x => x ^ 2) _ _ hlen
  have hsum : (pts.map TimePoint.v).sum = ((pts.map TimePoint.v).length : ℚ) * c := by
    rw [List.sum_eq_card_nsmul _ c hx, nsmul_eq_mul]
  have hsumsq : ((pts.map TimePoint.v).map (fun x => x ^ 2)).sum
      = ((pts.map TimePoint.v).length : ℚ) * c ^ 2 := by
    rw [List.sum_eq_card_nsmul _ (c ^ 2) hxsq, nsmul_eq_mul, List.length_map]
  simp only [calculate_linear_regression, h1, h2, hsum, hsumsq]
  rw [if_pos (by ring)]

/-- Witness for C8 on a constant two-point series. -/
theorem regression_degenerate_witness :
    calculate_linear_regression [⟨0, 5⟩, ⟨900, 5⟩] = none :=
  regression_degenerate_on_constant [⟨0, 5⟩, ⟨900, 5⟩] 5 (by decide)

/-- C3 (code bug): on the series with flows `[3, 1, 5]` the code evaluates
the second projection endpoint at `max(ys)` — the maximum of the position
indices — although the variable receiving it is named `max_x`; the spec's
endpoint (intercept plus slope times the maximum flow value) differs. -/
theorem regression_endpoint_eval :
    calculate_linear_regression [⟨0, 3⟩, ⟨900, 1⟩, ⟨1800, 5⟩] = some (1 / 2, 3 / 4) ∧
    specRegressionEndpoints [⟨0, 3⟩, ⟨900, 1⟩, ⟨1800, 5⟩] = some (1 / 2, 3 / 2) ∧
    (3 / 4 : ℚ) ≠ 3 / 2 := by
  refine ⟨by norm_num [calculate_linear_regression, List.range_succ, listMin, listMax],
    by norm_num [specRegressionEndpoints, List.range_succ, listMin, listMax], by norm_num⟩

/-- C6 (counterexample): two samples 1800 seconds apart are integrated by the
code with the nominal 900-second width — half the true trapezoid area that the
claimed actual-elapsed-seconds width yields. -/
theorem volume_width_counterexample :
    get_streamflow_volume [⟨0, 100⟩, ⟨1800, 100⟩] = 90000 * (229568 / 10 ^ 10) ∧
    specVolumeOf [⟨0, 100⟩, ⟨1800, 100⟩] = 180000 * (229568 / 10 ^ 10) ∧
    get_streamflow_volume [⟨0, 100⟩, ⟨1800, 100⟩] ≠
      specVolumeOf [⟨0, 100⟩, ⟨1800, 100⟩] := by
  refine ⟨by norm_num [get_streamflow_volume, volumeSum],
    by norm_num [specVolumeOf, specTimedVolumeSum],
    by norm_num [get_streamflow_volume, volumeSum, specVolumeOf, specTimedVolumeSum]⟩

/-- C6 (amended): the code integrates every adjacent pair with the fixed
width `15 * 60 = 900` seconds, ignoring the timestamps; it agrees with the
true-elapsed-seconds trapezoid sum exactly on series whose consecutive
samples are 900 seconds apart. -/
theorem volume_fixed_width_agrees_on_nominal_cadence (pts : List TimePoint)
    (h : List.Chain' (fun p q => q.t - p.t = 900) pts) :
    get_streamflow_volume pts = specVolumeOf pts := by
  unfold get_streamflow_volume specVolumeOf
  rw [volumeSum_eq_timed pts h]

/-- C4 (counterexample): two member series with identical values but year
labels 2023 (position 0, the anchor) and 2014 have equal volumes; the code
returns the position-0 series — the one with the LATEST year label — for both
extremes, not the earliest-year series. -/
theorem outliers_tie_counterexample :
    get_streamflow_volume [(⟨0, 2⟩ : TimePoint), ⟨900, 4⟩] =
      get_streamflow_volume [(⟨0, 4⟩ : TimePoint), ⟨900, 2⟩] ∧
    get_streamflow_outliers [⟨2023, [⟨0, 2⟩, ⟨900, 4⟩]⟩, ⟨2014, [⟨0, 4⟩, ⟨900, 2⟩]⟩] =
      some (⟨2023, [⟨0, 2⟩, ⟨900, 4⟩]⟩, ⟨2023, [⟨0, 2⟩, ⟨900, 4⟩]⟩) ∧
    (2014 : Int) < 2023 := by
  refine ⟨by norm_num [get_streamflow_volume, volumeSum],
    by norm_num [get_streamflow_outliers, get_streamflow_volume, volumeSum, listMax, listMin,
      firstIdxOf, List.findIdx_cons],
    by norm_num⟩

theorem foldl_max_const (c : ℚ) : ∀ t : List ℚ, (∀ x ∈ t, x = c) → t.foldl max c = c := by
  intro t
  induction t with
  | nil => intro _; rfl
  | cons a u ih =>
      intro h
      have ha : a = c := h a (List.mem_cons_self a u)
      rw [List.foldl_cons, ha, max_self]
      exact ih (fun x hx => h x (List.mem_cons_of_mem a hx))

theorem foldl_min_const (c : ℚ) : ∀ t : List ℚ, (∀ x ∈ t, x = c) → t.foldl min c = c := by
  intro t
  induction t with
  | nil => intro _; rfl
  | cons a u ih =>
      intro h
      have ha : a = c := h a (List.mem_cons_self a u)
      rw [List.foldl_cons, ha, min_self]
      exact ih (fun x hx => h x (List.mem_cons_of_mem a hx))

/-- C4 (amended): ties in volume are broken by the earliest position in the
collection; when all member volumes are equal, `get_streamflow_outliers`
returns the position-0 member — the anchor, the most recent year — as both
the maximum and the minimum. -/
theorem outliers_tie_first_position (s : YearSeries) (rest : List YearSeries) (c : ℚ)
    (h : ∀ ys ∈ s :: rest, get_streamflow_volume ys.points = c) :
    get_streamflow_outliers (s :: rest) = some (s, s) := by
  have hs : get_streamflow_volume s.points = c := h s (List.mem_cons_self s rest)
  have hrest : ∀ x ∈ rest.map (fun ys => get_streamflow_volume ys.points), x = c := by
    intro x hx
    obtain ⟨ys, hys, rfl⟩ := List.mem_map.1 hx
    exact h ys (List.mem_cons_of_mem s hys)
  have hmax : listMax ((s :: rest).map (fun ys => get_streamflow_volume ys.points)) = c := by
    simp only [List.map_cons, listMax]
    rw [hs]
    exact foldl_max_const c _ hrest
  have hmin : listMin ((s :: rest).map (fun ys => get_streamflow_volume ys.points)) = c := by
    simp only [List.map_cons, listMin]
    rw [hs]
    exact foldl_min_const c _ hrest
  have hidx : firstIdxOf ((s :: rest).map (fun ys => get_streamflow_volume ys.points)) c = 0 := by
    simp only [List.map_cons, firstIdxOf, List.findIdx_cons, hs]
    simp
  simp only [get_streamflow_outliers]
  rw [hmax, hmin, hidx]
  rfl

/-- Witness for the amended C4 on a two-member collection of empty series. -/
theorem outliers_tie_first_position_witness :
    get_streamflow_outliers [⟨2023, []⟩, ⟨2014, []⟩] = some (⟨2023, []⟩, ⟨2023, []⟩) :=
  outliers_tie_first_position ⟨2023, []⟩ [⟨2014, []⟩] 0
    (by intro ys hys; fin_cases hys <;> with_unfolding_all rfl)

/-- Witness for the amended C6 on a nominal-cadence two-point series. -/
theorem volume_fixed_width_witness :
    List.Chain' (fun p q => q.t - p.t = 900) [(⟨0, 100⟩ : TimePoint), ⟨900, 50⟩] ∧
    get_streamflow_volume [(⟨0, 100⟩ : TimePoint), ⟨900, 50⟩] =
      specVolumeOf [(⟨0, 100⟩ : TimePoint), ⟨900, 50⟩] := by
  have hc : List.Chain' (fun p q => q.t - p.t = 900)
      [(⟨0, 100⟩ : TimePoint), ⟨900, 50⟩] := by
    simp only [List.chain'_cons, List.chain'_singleton, and_true]
    norm_num
  exact ⟨hc, volume_fixed_width_agrees_on_nominal_cadence _ hc⟩

theorem getD_mem_of_mem {α : Type} (l : List α) (i : Nat) (d : α) (hd : d ∈ l) :
    l.getD i d ∈ l := by
  rcases hq : l[i]? with _ | a
  · have he : l.getD i d = d := by simp [List.getD_eq_getElem?_getD, hq]
    rw [he]; exact hd
  · have he : l.getD i d = a := by simp [List.getD_eq_getElem?_getD, hq]
    rw [he]; exact List.getElem?_mem hq

/-- C7 (counterexample): computing the historical average DOES remove the
anchor series from the caller's collection (`df_list.pop(0)`): after the call
on a two-member collection, the caller's list has lost its first member. -/
theorem average_mutation_counterexample :
    (get_streamflow_average [⟨2023, [⟨0, 1⟩]⟩, ⟨2022, [⟨0, 2⟩]⟩]).map Prod.fst =
      some [⟨2022, [⟨0, 2⟩]⟩] ∧
    ([(⟨2022, [⟨0, 2⟩]⟩ : YearSeries)] ≠ [⟨2023, [⟨0, 1⟩]⟩, ⟨2022, [⟨0, 2⟩]⟩]) := by
  refine ⟨by with_unfolding_all rfl, by simp⟩

/-- C7 (amended): volume, rate, outlier selection and regression are pure
functions of their input — in particular the two series `get_streamflow_outliers`
returns are members of the input collection, unchanged — but
`get_streamflow_average` removes the anchor (position 0) from the caller's
collection: the collection seen by the caller after the call is the tail of
the one passed in, never the list itself. -/
theorem derived_computations_frame :
    (∀ (df : YearSeries) (l hist : List YearSeries) (r : List (ℚ × ℚ)),
        get_streamflow_average (df :: l) = some (hist, r) →
        hist = l ∧ hist ≠ df :: l) ∧
    (∀ (ysl : List YearSeries) (a b : YearSeries),
        get_streamflow_outliers ysl = some (a, b) → a ∈ ysl ∧ b ∈ ysl) := by
  constructor
  · intro df l hist r h
    simp only [get_streamflow_average, Option.some.injEq, Prod.mk.injEq] at h
    obtain ⟨h1, _⟩ := h
    subst h1
    refine ⟨rfl, ?_⟩
    intro hcontra
    have hlen := congrArg List.length hcontra
    simp [List.length_cons] at hlen
  · intro ysl a b h
    cases ysl with
    | nil => simp [get_streamflow_outliers] at h
    | cons s rest =>
        simp only [get_streamflow_outliers, Option.some.injEq, Prod.mk.injEq] at h
        obtain ⟨h1, h2⟩ := h
        constructor
        · rw [← h1]
          exact getD_mem_of_mem _ _ _ (List.mem_cons_self s rest)
        · rw [← h2]
          exact getD_mem_of_mem _ _ _ (List.mem_cons_self s rest)

/-- Witness for the amended C7: the average call on a concrete two-member
collection, and the outlier call on a concrete singleton collection. -/
theorem derived_computations_frame_witness :
    (([(⟨2022, []⟩ : YearSeries)] = [⟨2022, []⟩]) ∧
      ([(⟨2022, []⟩ : YearSeries)] ≠ [⟨2023, [⟨0, 1⟩]⟩, ⟨2022, []⟩])) ∧
    ((⟨2023, []⟩ : YearSeries) ∈ [(⟨2023, []⟩ : YearSeries)] ∧
      (⟨2023, []⟩ : YearSeries) ∈ [(⟨2023, []⟩ : YearSeries)]) :=
  ⟨derived_computations_frame.1 ⟨2023, [⟨0, 1⟩]⟩ [⟨2022, []⟩] [⟨2022, []⟩] []
      (by with_unfolding_all rfl),
    derived_computations_frame.2 [⟨2023, []⟩] ⟨2023, []⟩ ⟨2023, []⟩
      (by with_unfolding_all rfl)⟩

/-- C2 (counterexample): with two historical years each holding one value at
a key the other year lacks, the code's average at key 1 is `10 / 2 = 5` —
the sum of the present values divided by the TOTAL number of historical
years — while the claimed pointwise-intersection mean at key 1 is `10`. -/
theorem average_pointwise_counterexample :
    get_streamflow_average [⟨2024, []⟩, ⟨2023, [⟨1, 10⟩]⟩, ⟨2022, [⟨2, 6⟩]⟩] =
      some ([⟨2023, [⟨1, 10⟩]⟩, ⟨2022, [⟨2, 6⟩]⟩], [(1, 5), (2, 3)]) ∧
    specPointwiseMean [⟨2023, [⟨1, 10⟩]⟩, ⟨2022, [⟨2, 6⟩]⟩] 1 = some 10 ∧
    (5 : ℚ) ≠ 10 := by
  refine ⟨by with_unfolding_all rfl, by with_unfolding_all rfl, by norm_num⟩

theorem find_in_keyed_map (f : ℚ → ℚ) (k : ℚ) : ∀ ks : List ℚ, k ∈ ks →
    ((ks.map (fun a => (a, f a))).find? (fun p => decide (p.1 = k))) = some (k, f k) := by
  intro ks
  induction ks with
  | nil => intro h; simp at h
  | cons a t ih =>
      intro h
      by_cases hak : a = k
      · subst hak
        simp [List.find?_cons]
      · have hk : k ∈ t := by
          rcases List.mem_cons.1 h with h1 | h1
          · exact absurd h1.symm hak
          · exact h1
        simp only [List.map_cons, List.find?_cons]
        simpa [hak] using ih hk

/-- C2 (amended): the averaging step excludes the anchor (position 0) and
keeps every key that occurs in any historical year, but the value it records
at each such key is the sum of the values present there (missing years
contributing 0, as the NaN-skipping row sum does) divided by the TOTAL
number of historical years — not by the number of years that have the key. -/
theorem average_total_divisor (df₀ : YearSeries) (hist : List YearSeries) (k : ℚ)
    (hk : k ∈ hist.flatMap (fun ys => ys.points.map TimePoint.t)) :
    (get_streamflow_average (df₀ :: hist)).map Prod.fst = some hist ∧
    ((get_streamflow_average (df₀ :: hist)).bind
        (fun pr => (pr.2.find? (fun p => decide (p.1 = k))).map Prod.snd)) =
      some ((hist.map (fun ys => (dfLookup ys k).getD 0)).sum / (hist.length : ℚ)) := by
  constructor
  · simp [get_streamflow_average]
  · simp only [get_streamflow_average, Option.some_bind]
    have hmem : k ∈ mergedKeys hist := by
      rw [mergedKeys, List.mem_dedup]
      exact hk
    rw [find_in_keyed_map (fun a => (hist.map (fun ys => (dfLookup ys a).getD 0)).sum /
      (hist.length : ℚ)) k (mergedKeys hist) hmem]
    rfl

/-- Witness for the amended C2 at key 1 of a concrete two-year history. -/
theorem average_total_divisor_witness :
    (get_streamflow_average [⟨2024, []⟩, ⟨2023, [⟨1, 10⟩]⟩, ⟨2022, [⟨2, 6⟩]⟩]).map Prod.fst =
      some [⟨2023, [⟨1, 10⟩]⟩, ⟨2022, [⟨2, 6⟩]⟩] ∧
    ((get_streamflow_average [⟨2024, []⟩, ⟨2023, [⟨1, 10⟩]⟩, ⟨2022, [⟨2, 6⟩]⟩]).bind
        (fun pr => (pr.2.find? (fun p => decide (p.1 = 1))).map Prod.snd)) =
      some ((([⟨2023, [⟨1, 10⟩]⟩, ⟨2022, [⟨2, 6⟩]⟩] : List YearSeries).map
          (fun ys => (dfLookup ys 1).getD 0)).sum /
        (([⟨2023, [⟨1, 10⟩]⟩, ⟨2022, [⟨2, 6⟩]⟩] : List YearSeries).length : ℚ)) :=
  average_total_divisor ⟨2024, []⟩ [⟨2023, [⟨1, 10⟩]⟩, ⟨2022, [⟨2, 6⟩]⟩] 1
    (by with_unfolding_all decide)

theorem windowsLoop_length : ∀ (n : Nat) (sd ed : Date),
    (windowsLoop n sd ed).length = n := by
  intro n
  induction n with
  | zero => intro sd ed; rfl
  | succ n ih => intro sd ed; simp [windowsLoop, ih]

theorem windowsLoop_get? : ∀ (n i : Nat) (sd ed : Date), i < n →
    (windowsLoop n sd ed).get? i = some (sub_year^[i + 1] sd, sub_year^[i + 1] ed) := by
  intro n
  induction n with
  | zero => intro i sd ed h; omega
  | succ n ih =>
      intro i sd ed h
      cases i with
      | zero => rfl
      | succ j =>
          have hj : j < n := by omega
          simp only [windowsLoop, List.get?_cons_succ]
          rw [ih j (sub_year sd) (sub_year ed) hj,
            ← Function.iterate_succ_apply, ← Function.iterate_succ_apply]

/-- C10 (counterexample): for the anchor date 2023-01-15 the first fetch
window is `(2023-01-01, 2023-01-15)` — its end is the anchor date itself, not
the anchor date plus 6 days (2023-01-21). -/
theorem anchor_window_counterexample :
    (streamflowWindows ⟨2023, 1, 15⟩).get? 0 = some (⟨2023, 1, 1⟩, ⟨2023, 1, 15⟩) ∧
    addDays ⟨2023, 1, 15⟩ 6 = ⟨2023, 1, 21⟩ ∧
    ((⟨2023, 1, 15⟩ : Date) ≠ ⟨2023, 1, 21⟩) := by
  refine ⟨by decide, by decide, by decide⟩

/-- C10 (amended): the anchor-year (offset 0) fetch window spans from 14 days
before the anchor date to the anchor date itself; only the nine historical
windows carry the pre-window-14/post-window-6 shape, as year-decremented
images of `(anchor - 14 days, anchor + 6 days)`. -/
theorem streamflow_windows_shape (anchor : Date) (i : Nat) (hi : i < 9) :
    (streamflowWindows anchor).length = 10 ∧
    (streamflowWindows anchor).get? 0 = some (subDays anchor 14, anchor) ∧
    (streamflowWindows anchor).get? (i + 1) =
      some (subYears (i + 1) (subDays anchor 14), subYears (i + 1) (addDays anchor 6)) := by
  refine ⟨?_, rfl, ?_⟩
  · simp [streamflowWindows, windowsLoop_length]
  · simp only [streamflowWindows, List.get?_cons_succ]
    rw [windowsLoop_get? 9 i _ _ hi,
      subYears_eq_iterate (i + 1) (subDays anchor 14),
      subYears_eq_iterate (i + 1) (addDays anchor 6)]

/-- Witness for the amended C10 at the anchor date 2023-01-15 with `i = 3`. -/
theorem streamflow_windows_shape_witness :
    (streamflowWindows ⟨2023, 1, 15⟩).length = 10 ∧
    (streamflowWindows ⟨2023, 1, 15⟩).get? 0 =
      some (subDays ⟨2023, 1, 15⟩ 14, ⟨2023, 1, 15⟩) ∧
    (streamflowWindows ⟨2023, 1, 15⟩).get? (3 + 1) =
      some (subYears (3 + 1) (subDays ⟨2023, 1, 15⟩ 14),
        subYears (3 + 1) (addDays ⟨2023, 1, 15⟩ 6)) :=
  streamflow_windows_shape ⟨2023, 1, 15⟩ 3 (by omega)

end Streamflow
